import Mathlib

/-!
Verification of the capy-bun cross-thread RPC bridge.

The development shallowly embeds the three stateful pieces of the
repository:

* the control-side request correlator (`WorkerClient` in
  `packages/typescript/src/worker-client.ts`): pending-request map,
  request-id allocation and the worker-message handler;
* the worker-side command dispatcher (`ui-worker.ts` `self.onmessage`):
  handle registry, callback registration maps and the per-command
  branches, together with the Zig wrapper guards of
  `capy_column_create` / `capy_row_create` (`wrapper.zig`);
* the control-side object proxies (`widgets.ts` / `capy.ts`):
  the promise shape of `Widget.getHandleId` and
  `Window.ensureInitialized`.

The capy toolkit itself is outside the repository; it enters the model
as an oracle (`Capy`) giving the pointer returned by each toolkit
constructor (`0` encodes the null / failure sentinel).
-/

/-! ## Association-list model of a JS `Map` with integer keys

JS `Map` iterates in insertion order; `set` on a fresh key appends,
`set` on an existing key overwrites in place.  A key is present at most
once, which the `mapSet` discipline maintains.
-/

def mapGet (m : List (Nat × Nat)) (k : Nat) : Option Nat :=
  (m.find? (fun p => p.1 = k)).map (fun p => p.2)

def mapSet (m : List (Nat × Nat)) (k v : Nat) : List (Nat × Nat) :=
  if (m.find? (fun p => p.1 = k)).isSome then
    m.map (fun p => if p.1 = k then (k, v) else p)
  else
    m ++ [(k, v)]

/-! ## Wire messages, worker → control

`WMsg` is the closed set of messages `ui-worker.ts` posts to the main
thread.  `error none` models the init-time error that carries no
request id (`id` is `undefined` there).
-/

inductive WMsg where
  | ready
  | success (id : Nat)
  | created (entity : String) (id : Nat) (handleId : Nat)
  | error (id : Option Nat) (msg : String)
  | eventLoopStarting (id : Nat)
  | eventLoopEnded (id : Nat)
  | callback (callbackId : Nat)
  | shutdownComplete (id : Nat)
  deriving DecidableEq

/-! ## Control side: the request correlator (`WorkerClient`) -/

/-- Observable actions of the control-side message handler: settling a
pending promise, or invoking a registered callback function. -/
inductive CAction where
  | resolve (id : Nat)
  | reject (id : Nat) (msg : String)
  | invokeCallback (callbackId : Nat)
  deriving DecidableEq

/-- State of `WorkerClient`: `pending` is the key set of
`pendingRequests` (a JS `Map`, so insertion-ordered and duplicate-free
by construction), `callbacks` the key set of `callbacks`. -/
structure ClientState where
  nextRequestId : Nat
  pending : List Nat
  callbacks : List Nat
  nextCallbackId : Nat
  ready : Bool
  deriving DecidableEq

def initClient : ClientState :=
  { nextRequestId := 1, pending := [], callbacks := [], nextCallbackId := 1, ready := false }

/-- Remove a request id from the pending set (`pendingRequests.delete(id)`). -/
def removePending (cs : ClientState) (i : Nat) : ClientState :=
  { cs with pending := cs.pending.filter (fun j => j ≠ i) }

/-- The `message` listener of `WorkerClient`, branch for branch:
`callback` messages invoke a registered callback and touch nothing
else; `event_loop_starting` is looked up but deliberately not settled;
`event_loop_ended` resolves; `error` rejects (with the
`"Unknown worker error"` default for an empty reason); every other
typed message with a matching pending id resolves it; a message whose
id matches no pending request falls through the `if (!pending) return`
guard and is ignored. -/
def handleWorkerMessage (cs : ClientState) : WMsg → ClientState × List CAction
  | .ready => ({ cs with ready := true }, [])
  | .callback cid =>
      if cid ∈ cs.callbacks then (cs, [.invokeCallback cid]) else (cs, [])
  | .eventLoopStarting _ => (cs, [])
  | .eventLoopEnded i =>
      if i ∈ cs.pending then (removePending cs i, [.resolve i]) else (cs, [])
  | .error none _ => (cs, [])
  | .error (some i) e =>
      if i ∈ cs.pending then
        (removePending cs i, [.reject i (if e = "" then "Unknown worker error" else e)])
      else (cs, [])
  | .success i =>
      if i ∈ cs.pending then (removePending cs i, [.resolve i]) else (cs, [])
  | .created _ i _ =>
      if i ∈ cs.pending then (removePending cs i, [.resolve i]) else (cs, [])
  | .shutdownComplete i =>
      if i ∈ cs.pending then (removePending cs i, [.resolve i]) else (cs, [])

/-- Control-side events: `send` is `sendCommand` (allocates
`nextRequestId++` and parks a pending request), `registerCallback` is
the callback registration inside `createButton`, `recv` is a worker
message, `workerError` is the `error` listener. -/
inductive ClientEvent where
  | send
  | registerCallback
  | recv (m : WMsg)
  | workerError

def clientStep (cs : ClientState) : ClientEvent → ClientState × List CAction
  | .send =>
      ({ cs with nextRequestId := cs.nextRequestId + 1,
                 pending := cs.pending ++ [cs.nextRequestId] }, [])
  | .registerCallback =>
      ({ cs with nextCallbackId := cs.nextCallbackId + 1,
                 callbacks := cs.callbacks ++ [cs.nextCallbackId] }, [])
  | .recv m => handleWorkerMessage cs m
  | .workerError =>
      ({ cs with pending := [] },
       cs.pending.map (fun i => CAction.reject i "Worker error"))

def runClient : ClientState → List ClientEvent → ClientState × List CAction
  | cs, [] => (cs, [])
  | cs, ev :: rest =>
      let r := clientStep cs ev
      let r' := runClient r.1 rest
      (r'.1, r.2 ++ r'.2)

/-- The request id an action settles, if any. -/
def settleId : CAction → Option Nat
  | .resolve i => some i
  | .reject i _ => some i
  | .invokeCallback _ => none

/-- How many actions of the list settle (resolve or reject) request `i`. -/
def settleCount (acts : List CAction) (i : Nat) : Nat :=
  acts.countP (fun a => settleId a = some i)

/-- The request id a worker message would be correlated against. -/
def responseId : WMsg → Option Nat
  | .ready => none
  | .success i => some i
  | .created _ i _ => some i
  | .error oi _ => oi
  | .eventLoopStarting i => some i
  | .eventLoopEnded i => some i
  | .callback _ => none
  | .shutdownComplete i => some i

/-- Correlator invariant: pending ids are pairwise distinct and all
below the allocation cursor. -/
def CInv (cs : ClientState) : Prop :=
  cs.pending.Nodup ∧ ∀ i ∈ cs.pending, i < cs.nextRequestId

/-! ## Worker side: handle registry, callback router, dispatcher -/

/-- Oracle for the capy toolkit (the external native collaborator).
Each field gives the pointer a toolkit constructor returns for given
arguments; `0` is the null / failure sentinel.  `setChildResult` is the
`c_int` of `capy_window_set_child`'s `win.set` (nonzero = failure). -/
structure Capy where
  window : Nat
  labelOf : String → Nat → Nat
  buttonOf : String → Bool → Nat
  textFieldOf : String → Bool → Nat
  columnOf : List Nat → Nat
  rowOf : List Nat → Nat
  alignmentOf : Nat → Nat
  setChildResult : Nat → Nat → Int

/-- Calls that cross from the Zig wrapper into the capy toolkit
(the boundary the spec calls the native layer). -/
inductive ToolkitCall where
  | column (ptrs : List Nat)
  | row (ptrs : List Nat)
  deriving DecidableEq

/-- FFI calls the worker makes into the shared library. -/
inductive FfiCall where
  | windowCreate
  | windowSetTitle (ptr : Nat) (title : String)
  | windowSetPreferredSize (ptr width height : Nat)
  | windowSetChild (windowPtr widgetPtr : Nat)
  | windowShow (ptr : Nat)
  | labelCreate (text : String) (alignment : Nat)
  | buttonCreate (labelText : String) (hasCallback : Bool)
  | textfieldCreate (text : String) (readOnly : Bool)
  | columnCreate (ptrs : List Nat)
  | rowCreate (ptrs : List Nat)
  | alignmentCreate (ptr x y : Nat)
  | runEventLoop
  | deinit
  deriving DecidableEq

/-- Ordered observable output of the worker while handling one
command: posted messages, FFI calls, and toolkit calls made inside the
wrapper. -/
inductive WOut where
  | msg (m : WMsg)
  | ffi (c : FfiCall)
  | tk (c : ToolkitCall)
  deriving DecidableEq

/-- State of `ui-worker.ts`: the handle registry (`handles`,
`nextHandleId`) and the two callback-routing maps. -/
structure WorkerState where
  handles : List (Nat × Nat)
  nextHandleId : Nat
  widgetToCallback : List (Nat × Nat)
  buttonPtrToCallback : List (Nat × Nat)
  deriving DecidableEq

def initWorker : WorkerState :=
  { handles := [], nextHandleId := 1, widgetToCallback := [], buttonPtrToCallback := [] }

/-- `handles.get(h)` followed by the JS truthiness test `!handle`:
an absent key or a (never stored) zero pointer both count as invalid. -/
def lookupHandle (st : WorkerState) (h : Nat) : Option Nat :=
  match mapGet st.handles h with
  | some p => if p = 0 then none else some p
  | none => none

/-- `const handleId = nextHandleId++; handles.set(handleId, handle);` -/
def registerHandle (st : WorkerState) (p : Nat) : WorkerState × Nat :=
  ({ st with handles := mapSet st.handles st.nextHandleId p,
             nextHandleId := st.nextHandleId + 1 },
   st.nextHandleId)

/-- `capy_column_create` from `wrapper.zig`: count 0 and count > 10
return null before touching the toolkit; the `switch` builds the column
only for counts 1–5 (its `else` arm, counts 6–10, also returns null
without a toolkit call); a failing `capy.column` yields null. -/
def capy_column_create (cap : Capy) (ptrs : List Nat) : Option Nat × List ToolkitCall :=
  if ptrs.length = 0 then (none, [])
  else if ptrs.length > 10 then (none, [])
  else if ptrs.length ≤ 5 then
    let r := cap.columnOf ptrs
    (if r = 0 then none else some r, [ToolkitCall.column ptrs])
  else (none, [])

/-- `capy_row_create` from `wrapper.zig`, same guards as the column. -/
def capy_row_create (cap : Capy) (ptrs : List Nat) : Option Nat × List ToolkitCall :=
  if ptrs.length = 0 then (none, [])
  else if ptrs.length > 10 then (none, [])
  else if ptrs.length ≤ 5 then
    let r := cap.rowOf ptrs
    (if r = 0 then none else some r, [ToolkitCall.row ptrs])
  else (none, [])

/-- Commands of the wire protocol (control → worker).  Optional fields
mirror the `??` / `||` defaulting in the worker; the alignment
coordinates are carried opaquely. -/
inductive Command where
  | window_create
  | window_set_title (handleId : Nat) (title : String)
  | window_set_preferred_size (handleId width height : Nat)
  | window_set_child (windowHandleId widgetHandleId : Nat)
  | window_show (handleId : Nat)
  | label_create (text : String) (alignment : Option Nat)
  | button_create (labelText : String) (callbackId : Option Nat)
  | textfield_create (text : Option String) (readOnly : Option Bool)
  | column_create (childHandleIds : List Nat)
  | row_create (childHandleIds : List Nat)
  | alignment_create (childHandleId x y : Nat)
  | run_event_loop
  | shutdown
  | unknown (name : String)

/-- The `self.onmessage` dispatcher of `ui-worker.ts`, case by case.
Output lists record, in order, the FFI / toolkit calls made and the
message posted back. -/
def dispatch (cap : Capy) (st : WorkerState) (id : Nat) :
    Command → WorkerState × List WOut
  | .window_create =>
      let p := cap.window
      if p = 0 then
        (st, [.ffi .windowCreate, .msg (.error (some id) "Failed to create window")])
      else
        let r := registerHandle st p
        (r.1, [.ffi .windowCreate, .msg (.created "window" id r.2)])
  | .window_set_title h title =>
      match lookupHandle st h with
      | none => (st, [.msg (.error (some id) "Invalid window handle")])
      | some p => (st, [.ffi (.windowSetTitle p title), .msg (.success id)])
  | .window_set_preferred_size h w ht =>
      match lookupHandle st h with
      | none => (st, [.msg (.error (some id) "Invalid window handle")])
      | some p => (st, [.ffi (.windowSetPreferredSize p w ht), .msg (.success id)])
  | .window_set_child wh gh =>
      match lookupHandle st wh, lookupHandle st gh with
      | some wp, some gp =>
          if cap.setChildResult wp gp ≠ 0 then
            (st, [.ffi (.windowSetChild wp gp),
                  .msg (.error (some id) "Failed to set window child")])
          else
            (st, [.ffi (.windowSetChild wp gp), .msg (.success id)])
      | _, _ => (st, [.msg (.error (some id) "Invalid handle")])
  | .window_show h =>
      match lookupHandle st h with
      | none => (st, [.msg (.error (some id) "Invalid window handle")])
      | some p => (st, [.ffi (.windowShow p), .msg (.success id)])
  | .label_create text alignment =>
      let a := alignment.getD 0
      let p := cap.labelOf text a
      if p = 0 then
        (st, [.ffi (.labelCreate text a), .msg (.error (some id) "Failed to create label")])
      else
        let r := registerHandle st p
        (r.1, [.ffi (.labelCreate text a), .msg (.created "widget" id r.2)])
  | .button_create labelText callbackId =>
      let hasCb := callbackId.isSome
      let p := cap.buttonOf labelText hasCb
      if p = 0 then
        (st, [.ffi (.buttonCreate labelText hasCb),
              .msg (.error (some id) "Failed to create button")])
      else
        let r := registerHandle st p
        let st' :=
          match callbackId with
          | some c => { r.1 with widgetToCallback := mapSet r.1.widgetToCallback p c }
          | none => r.1
        (st', [.ffi (.buttonCreate labelText hasCb), .msg (.created "widget" id r.2)])
  | .textfield_create text readOnly =>
      let t := text.getD ""
      let ro := readOnly.getD false
      let p := cap.textFieldOf t ro
      if p = 0 then
        (st, [.ffi (.textfieldCreate t ro),
              .msg (.error (some id) "Failed to create text field")])
      else
        let r := registerHandle st p
        (r.1, [.ffi (.textfieldCreate t ro), .msg (.created "widget" id r.2)])
  | .column_create kids =>
      let childHandles := kids.map (lookupHandle st)
      if childHandles.any (fun o => o.isNone) then
        (st, [.msg (.error (some id) "Invalid child handle")])
      else
        let ptrs := childHandles.map (fun o => o.getD 0)
        let rc := capy_column_create cap ptrs
        let pre := WOut.ffi (.columnCreate ptrs) :: rc.2.map WOut.tk
        match rc.1 with
        | none => (st, pre ++ [.msg (.error (some id) "Failed to create column")])
        | some p =>
            let r := registerHandle st p
            (r.1, pre ++ [.msg (.created "widget" id r.2)])
  | .row_create kids =>
      let childHandles := kids.map (lookupHandle st)
      if childHandles.any (fun o => o.isNone) then
        (st, [.msg (.error (some id) "Invalid child handle")])
      else
        let ptrs := childHandles.map (fun o => o.getD 0)
        let rc := capy_row_create cap ptrs
        let pre := WOut.ffi (.rowCreate ptrs) :: rc.2.map WOut.tk
        match rc.1 with
        | none => (st, pre ++ [.msg (.error (some id) "Failed to create row")])
        | some p =>
            let r := registerHandle st p
            (r.1, pre ++ [.msg (.created "widget" id r.2)])
  | .alignment_create ch x y =>
      match lookupHandle st ch with
      | none => (st, [.msg (.error (some id) "Invalid child handle")])
      | some p =>
          let q := cap.alignmentOf p
          if q = 0 then
            (st, [.ffi (.alignmentCreate p x y),
                  .msg (.error (some id) "Failed to create alignment")])
          else
            let r := registerHandle st q
            (r.1, [.ffi (.alignmentCreate p x y), .msg (.created "widget" id r.2)])
  | .run_event_loop =>
      (st, [.msg (.eventLoopStarting id), .ffi .runEventLoop, .msg (.eventLoopEnded id)])
  | .shutdown =>
      (st, [.ffi .deinit, .msg (.shutdownComplete id)])
  | .unknown name =>
      (st, [.msg (.error (some id) ("Unknown command: " ++ name))])

def runWorker (cap : Capy) : WorkerState → List (Nat × Command) → WorkerState × List WOut
  | st, [] => (st, [])
  | st, (id, c) :: rest =>
      let r := dispatch cap st id c
      let r' := runWorker cap r.1 rest
      (r'.1, r.2 ++ r'.2)

/-- Handles announced by `*_created` replies, in emission order. -/
def createdHandles (outs : List WOut) : List Nat :=
  outs.filterMap (fun o =>
    match o with
    | .msg (.created _ _ h) => some h
    | _ => none)

/-- Toolkit calls among the outputs. -/
def toolkitCalls (outs : List WOut) : List ToolkitCall :=
  outs.filterMap (fun o =>
    match o with
    | .tk c => some c
    | _ => none)

/-- FFI calls among the outputs. -/
def ffiCalls (outs : List WOut) : List FfiCall :=
  outs.filterMap (fun o =>
    match o with
    | .ffi c => some c
    | _ => none)

/-- Handle ids a command references (looked up in the registry). -/
def handleRefs : Command → List Nat
  | .window_set_title h _ => [h]
  | .window_set_preferred_size h _ _ => [h]
  | .window_set_child wh gh => [wh, gh]
  | .window_show h => [h]
  | .column_create kids => kids
  | .row_create kids => kids
  | .alignment_create ch _ _ => [ch]
  | _ => []

/-- Registry invariant: the cursor starts at 1, every stored key is a
previously issued id (`1 ≤ k < nextHandleId`) and every stored pointer
is nonzero. -/
def WInv (st : WorkerState) : Prop :=
  1 ≤ st.nextHandleId ∧
    ∀ p ∈ st.handles, 1 ≤ p.1 ∧ p.1 < st.nextHandleId ∧ p.2 ≠ 0

/-! ## Callback router (`buttonClickCallback` in `ui-worker.ts`) -/

/-- The `JSCallback` body: an already-bound pointer posts its bound id;
an unbound pointer takes the first value of `widgetToCallback` (the
`for..of` with an immediate `break`), binds the pointer to it and posts
it; with no registered callback at all nothing is posted. -/
def buttonClickCallback (ws : WorkerState) (buttonPtr : Nat) : WorkerState × List WMsg :=
  match mapGet ws.buttonPtrToCallback buttonPtr with
  | some cid => (ws, [.callback cid])
  | none =>
      match ws.widgetToCallback.head? with
      | some wc =>
          ({ ws with buttonPtrToCallback := mapSet ws.buttonPtrToCallback buttonPtr wc.2 },
           [.callback wc.2])
      | none => (ws, [])

/-- Spec-side notion used by claim C2: the first registered callback id
that is not yet bound to any native pointer. -/
def firstUnboundCallback (ws : WorkerState) : Option Nat :=
  (ws.widgetToCallback.find? (fun p =>
    ¬ (ws.buttonPtrToCallback.map (fun q => q.2)).contains p.2)).map (fun p => p.2)

/-! ## Object proxies: promise shape of handle resolution

`PResult` is the observable state of a promise: resolved, rejected with
an error message, or never settling.
-/

inductive PResult (α : Type) where
  | resolved (a : α)
  | rejected (e : String)
  | pending
  deriving DecidableEq

/-- Outcome of the widget constructor's async IIFE, as a function of
the creation command's result: on success `resolveInit()` runs after
`handleId` is assigned; on rejection the IIFE aborts before
`resolveInit()`, so `initPromise` never settles and `handleId` stays
null. -/
def widgetInit (creation : Except String Nat) : PResult Unit × Option Nat :=
  match creation with
  | .ok h => (.resolved (), some h)
  | .error _ => (.pending, none)

/-- `Widget.getHandleId`: await `initPromise`, then throw
`"Widget not initialized"` if `handleId` is still null, else return it. -/
def widgetGetHandleId (creation : Except String Nat) : PResult Nat :=
  match widgetInit creation with
  | (.pending, _) => .pending
  | (.rejected e, _) => .rejected e
  | (.resolved _, none) => .rejected "Widget not initialized"
  | (.resolved _, some h) => .resolved h

/-- Outcome of `Window.initialize()`: it is itself the init promise, so
a failing `createWindow` rejects it with the original error. -/
def windowInit (creation : Except String Nat) : PResult Unit × Option Nat :=
  match creation with
  | .ok h => (.resolved (), some h)
  | .error e => (.rejected e, none)

/-- `Window.ensureInitialized`: await `initPromise` (propagating its
rejection), then throw `"Window not initialized"` if `handleId` is
still null, else return it. -/
def windowEnsureInitialized (creation : Except String Nat) : PResult Nat :=
  match windowInit creation with
  | (.pending, _) => .pending
  | (.rejected e, _) => .rejected e
  | (.resolved _, none) => .rejected "Window not initialized"
  | (.resolved _, some h) => .resolved h

/-- Concrete toolkit oracle used in example states: distinct nonzero
pointers per constructor, buttons keyed by their label. -/
def capC : Capy :=
  { window := 100
    labelOf := fun _ _ => 21
    buttonOf := fun l _ => if l = "A" then 11 else 12
    textFieldOf := fun _ _ => 31
    columnOf := fun _ => 41
    rowOf := fun _ => 42
    alignmentOf := fun _ => 51
    setChildResult := fun _ _ => 0 }

/-! ## Correlator invariants

`pot cs i` is a potential bounding how often request id `i` can still
be settled from state `cs`: one if it is currently pending, plus one if
it could still be allocated by a future `send`.
-/

def pot (cs : ClientState) (i : Nat) : Nat :=
  (if i ∈ cs.pending then 1 else 0) + (if cs.nextRequestId ≤ i then 1 else 0)

lemma settleCount_append (a b : List CAction) (i : Nat) :
    settleCount (a ++ b) i = settleCount a i + settleCount b i := by
  simp [settleCount, List.countP_append]

lemma countP_eq_ite_mem (l : List Nat) (i : Nat) (h : l.Nodup) :
    l.countP (fun j => decide (j = i)) = if i ∈ l then 1 else 0 := by
  induction l with
  | nil => simp
  | cons a l ih =>
      rcases List.nodup_cons.mp h with ⟨ha, hl⟩
      by_cases hai : a = i
      · subst hai
        simp [List.countP_cons, ih hl, ha]
      · simp [List.countP_cons, ih hl, hai, Ne.symm hai]

lemma mem_removePending (cs : ClientState) (i j : Nat) :
    j ∈ (removePending cs i).pending ↔ j ∈ cs.pending ∧ j ≠ i := by
  simp [removePending]

lemma removePending_nextRequestId (cs : ClientState) (i : Nat) :
    (removePending cs i).nextRequestId = cs.nextRequestId := rfl

lemma settle_shape (cs : ClientState) (j : Nat) (a : CAction) (hj : j ∈ cs.pending)
    (ha : settleId a = some j) (hnd : cs.pending.Nodup)
    (hlt : ∀ i ∈ cs.pending, i < cs.nextRequestId) :
    CInv (removePending cs j) ∧
      ∀ i, settleCount [a] i + pot (removePending cs j) i ≤ pot cs i := by
  constructor
  · exact ⟨hnd.filter _, fun i hi => hlt i ((mem_removePending cs j i).mp hi).1⟩
  · intro i
    have hsc : settleCount [a] i = if j = i then 1 else 0 := by
      simp [settleCount, List.countP_cons, ha]
    by_cases hij : j = i
    · subst hij
      have hni : j ∉ (removePending cs j).pending := by
        simp [mem_removePending]
      simp [pot, hsc, hj, hni, removePending]
    · have hmm : i ∈ (removePending cs j).pending ↔ i ∈ cs.pending := by
        rw [mem_removePending]
        exact and_iff_left (fun hc => hij hc.symm)
      simp only [pot, hsc, if_neg hij, hmm, removePending_nextRequestId]
      omega

lemma handleMsg_potential (cs : ClientState) (m : WMsg) (h : CInv cs) :
    CInv (handleWorkerMessage cs m).1 ∧
      ∀ i, settleCount (handleWorkerMessage cs m).2 i
            + pot (handleWorkerMessage cs m).1 i ≤ pot cs i := by
  obtain ⟨hnd, hlt⟩ := h
  cases m with
  | ready =>
      exact ⟨⟨hnd, hlt⟩, fun i => by simp [handleWorkerMessage, settleCount, pot]⟩
  | callback cid =>
      by_cases hc : cid ∈ cs.callbacks
      · have hstep : handleWorkerMessage cs (WMsg.callback cid)
            = (cs, [CAction.invokeCallback cid]) := by
          simp [handleWorkerMessage, hc]
        rw [hstep]
        exact ⟨⟨hnd, hlt⟩, fun i => by
          simp only [settleCount, List.countP_cons, List.countP_nil, settleId]
          simp⟩
      · have hstep : handleWorkerMessage cs (WMsg.callback cid) = (cs, []) := by
          simp [handleWorkerMessage, hc]
        rw [hstep]
        exact ⟨⟨hnd, hlt⟩, fun i => by simp [settleCount]⟩
  | eventLoopStarting j =>
      exact ⟨⟨hnd, hlt⟩, fun i => by simp [handleWorkerMessage, settleCount]⟩
  | eventLoopEnded j =>
      by_cases hj : j ∈ cs.pending
      · simpa [handleWorkerMessage, hj] using
          settle_shape cs j (.resolve j) hj rfl hnd hlt
      · have hstep : handleWorkerMessage cs (WMsg.eventLoopEnded j) = (cs, []) := by
          simp [handleWorkerMessage, hj]
        rw [hstep]
        exact ⟨⟨hnd, hlt⟩, fun i => by simp [settleCount]⟩
  | error oi e =>
      cases oi with
      | none =>
          exact ⟨⟨hnd, hlt⟩, fun i => by simp [handleWorkerMessage, settleCount]⟩
      | some j =>
          by_cases hj : j ∈ cs.pending
          · simpa [handleWorkerMessage, hj] using
              settle_shape cs j
                (.reject j (if e = "" then "Unknown worker error" else e)) hj rfl hnd hlt
          · have hstep : handleWorkerMessage cs (WMsg.error (some j) e) = (cs, []) := by
              simp [handleWorkerMessage, hj]
            rw [hstep]
            exact ⟨⟨hnd, hlt⟩, fun i => by simp [settleCount]⟩
  | success j =>
      by_cases hj : j ∈ cs.pending
      · simpa [handleWorkerMessage, hj] using
          settle_shape cs j (.resolve j) hj rfl hnd hlt
      · have hstep : handleWorkerMessage cs (WMsg.success j) = (cs, []) := by
          simp [handleWorkerMessage, hj]
        rw [hstep]
        exact ⟨⟨hnd, hlt⟩, fun i => by simp [settleCount]⟩
  | created ent j hh =>
      by_cases hj : j ∈ cs.pending
      · simpa [handleWorkerMessage, hj] using
          settle_shape cs j (.resolve j) hj rfl hnd hlt
      · have hstep : handleWorkerMessage cs (WMsg.created ent j hh) = (cs, []) := by
          simp [handleWorkerMessage, hj]
        rw [hstep]
        exact ⟨⟨hnd, hlt⟩, fun i => by simp [settleCount]⟩
  | shutdownComplete j =>
      by_cases hj : j ∈ cs.pending
      · simpa [handleWorkerMessage, hj] using
          settle_shape cs j (.resolve j) hj rfl hnd hlt
      · have hstep : handleWorkerMessage cs (WMsg.shutdownComplete j) = (cs, []) := by
          simp [handleWorkerMessage, hj]
        rw [hstep]
        exact ⟨⟨hnd, hlt⟩, fun i => by simp [settleCount]⟩

lemma clientStep_potential (cs : ClientState) (ev : ClientEvent) (h : CInv cs) :
    CInv (clientStep cs ev).1 ∧
      ∀ i, settleCount (clientStep cs ev).2 i + pot (clientStep cs ev).1 i ≤ pot cs i := by
  obtain ⟨hnd, hlt⟩ := h
  cases ev with
  | send =>
      constructor
      · constructor
        · refine List.Nodup.append hnd (List.nodup_singleton _) ?_
          intro a ha hb
          rcases List.mem_singleton.mp hb with rfl
          exact absurd (hlt _ ha) (lt_irrefl _)
        · intro i hi
          rcases List.mem_append.mp hi with hi | hi
          · exact Nat.lt_succ_of_lt (hlt i hi)
          · rcases List.mem_singleton.mp hi with rfl
            exact Nat.lt_succ_self _
      · intro i
        simp only [clientStep, settleCount, List.countP_nil, pot, List.mem_append,
          List.mem_singleton]
        by_cases hm : i ∈ cs.pending
        · have hlt' := hlt i hm
          rw [if_pos (Or.inl hm : i ∈ cs.pending ∨ i = cs.nextRequestId), if_pos hm,
            if_neg (by omega : ¬ cs.nextRequestId + 1 ≤ i),
            if_neg (by omega : ¬ cs.nextRequestId ≤ i)]
        · by_cases he : i = cs.nextRequestId
          · rw [if_pos (Or.inr he), if_neg hm,
              if_neg (by omega : ¬ cs.nextRequestId + 1 ≤ i),
              if_pos (by omega : cs.nextRequestId ≤ i)]
          · have e1 : ¬ (i ∈ cs.pending ∨ i = cs.nextRequestId) := by
              rintro (hc | hc)
              · exact hm hc
              · exact he hc
            rw [if_neg e1, if_neg hm]
            by_cases hle : cs.nextRequestId + 1 ≤ i
            · rw [if_pos hle, if_pos (by omega : cs.nextRequestId ≤ i)]
            · rw [if_neg hle]
              omega
  | registerCallback =>
      refine ⟨⟨hnd, hlt⟩, fun i => ?_⟩
      simp [clientStep, settleCount, pot]
  | recv m => exact handleMsg_potential cs m ⟨hnd, hlt⟩
  | workerError =>
      constructor
      · exact ⟨List.nodup_nil, fun i hi => nomatch hi⟩
      · intro i
        have hsc : settleCount (cs.pending.map (fun j => CAction.reject j "Worker error")) i
            = if i ∈ cs.pending then 1 else 0 := by
          rw [settleCount, List.countP_map]
          have hfun : ((fun a => decide (settleId a = some i)) ∘
              (fun j => CAction.reject j "Worker error")) = fun j => decide (j = i) := by
            funext j
            simp [settleId]
          rw [hfun, countP_eq_ite_mem cs.pending i hnd]
        simp only [clientStep, hsc, pot, List.not_mem_nil, if_false]
        omega

lemma runClient_potential (evs : List ClientEvent) :
    ∀ cs, CInv cs →
      CInv (runClient cs evs).1 ∧
        ∀ i, settleCount (runClient cs evs).2 i + pot (runClient cs evs).1 i ≤ pot cs i := by
  induction evs with
  | nil =>
      intro cs h
      exact ⟨h, fun i => by simp [runClient, settleCount]⟩
  | cons ev rest ih =>
      intro cs h
      obtain ⟨h1, h2⟩ := clientStep_potential cs ev h
      obtain ⟨h3, h4⟩ := ih (clientStep cs ev).1 h1
      refine ⟨h3, fun i => ?_⟩
      have := h2 i
      have := h4 i
      simp only [runClient, settleCount_append]
      omega

lemma pot_initClient_le_one (i : Nat) : pot initClient i ≤ 1 := by
  simp only [pot, initClient, List.not_mem_nil, if_false]
  split <;> omega

lemma CInv_initClient : CInv initClient :=
  ⟨List.nodup_nil, fun _ hi => nomatch hi⟩

/-- C1: for every interleaving of sends, responses, callback messages
and transport failures, the correlator settles each request id at most
once over the whole trace, the pending map never holds two entries for
one id, a matching `success` / `*_created` response resolves (and an
`error` response rejects) exactly the pending request bearing its own
id while removing it, and any correlated message whose id matches no
pending request leaves the state untouched and settles nothing. -/
theorem correlator_request_settled_once (evs : List ClientEvent) :
    ((runClient initClient evs).1.pending.Nodup)
    ∧ (∀ i, settleCount (runClient initClient evs).2 i ≤ 1)
    ∧ (∀ cs i, i ∈ cs.pending →
        handleWorkerMessage cs (WMsg.success i) = (removePending cs i, [CAction.resolve i]))
    ∧ (∀ cs ent i hd, i ∈ cs.pending →
        handleWorkerMessage cs (WMsg.created ent i hd)
          = (removePending cs i, [CAction.resolve i]))
    ∧ (∀ cs i e, i ∈ cs.pending →
        handleWorkerMessage cs (WMsg.error (some i) e)
          = (removePending cs i,
             [CAction.reject i (if e = "" then "Unknown worker error" else e)]))
    ∧ (∀ cs m i, responseId m = some i → i ∉ cs.pending →
        handleWorkerMessage cs m = (cs, [])) := by
  obtain ⟨hinv, hpot⟩ := runClient_potential evs initClient CInv_initClient
  refine ⟨hinv.1, fun i => ?_, ?_, ?_, ?_, ?_⟩
  · have h1 := hpot i
    have h2 := pot_initClient_le_one i
    omega
  · intro cs i hi
    simp [handleWorkerMessage, hi]
  · intro cs ent i hd hi
    simp [handleWorkerMessage, hi]
  · intro cs i e hi
    simp [handleWorkerMessage, hi]
  · intro cs m i hid hni
    cases m with
    | ready => cases hid
    | callback cid => cases hid
    | eventLoopStarting j => rfl
    | eventLoopEnded j =>
        cases hid
        simp [handleWorkerMessage, hni]
    | success j =>
        cases hid
        simp [handleWorkerMessage, hni]
    | created ent j hd =>
        cases hid
        simp [handleWorkerMessage, hni]
    | shutdownComplete j =>
        cases hid
        simp [handleWorkerMessage, hni]
    | error oi e =>
        cases oi with
        | none => cases hid
        | some j =>
            cases hid
            simp [handleWorkerMessage, hni]

theorem correlator_request_settled_once_witness :
    (1 ∈ (clientStep initClient ClientEvent.send).1.pending)
    ∧ handleWorkerMessage (clientStep initClient ClientEvent.send).1 (WMsg.success 1)
        = (removePending (clientStep initClient ClientEvent.send).1 1, [CAction.resolve 1])
    ∧ settleCount (runClient initClient
          [ClientEvent.send, ClientEvent.recv (WMsg.success 1)]).2 1 ≤ 1
    ∧ handleWorkerMessage (clientStep initClient ClientEvent.send).1 (WMsg.success 2)
        = ((clientStep initClient ClientEvent.send).1, []) := by
  have h := correlator_request_settled_once [ClientEvent.send, ClientEvent.recv (WMsg.success 1)]
  refine ⟨by decide, h.2.2.1 _ 1 (by decide), h.2.1 1, h.2.2.2.2.2 _ (WMsg.success 2) 2 rfl (by decide)⟩

lemma settleCount_rejectAll (l : List Nat) (hnd : l.Nodup) (i : Nat) :
    settleCount (l.map (fun j => CAction.reject j "Worker error")) i
      = if i ∈ l then 1 else 0 := by
  rw [settleCount, List.countP_map]
  have hfun : ((fun a => decide (settleId a = some i)) ∘
      (fun j => CAction.reject j "Worker error")) = fun j => decide (j = i) := by
    funext j
    simp [settleId]
  rw [hfun, countP_eq_ite_mem l i hnd]

/-- C7: the worker `error` listener rejects every outstanding pending
request with the generic `"Worker error"` transport error — exactly one
rejection per formerly pending id — and leaves the pending map empty,
so no request stays pending. -/
theorem worker_error_rejects_all_pending (cs : ClientState) (h : cs.pending.Nodup) :
    (clientStep cs ClientEvent.workerError).1.pending = []
    ∧ (clientStep cs ClientEvent.workerError).2
        = cs.pending.map (fun i => CAction.reject i "Worker error")
    ∧ (∀ i, settleCount (clientStep cs ClientEvent.workerError).2 i
        = if i ∈ cs.pending then 1 else 0) := by
  refine ⟨rfl, rfl, fun i => ?_⟩
  exact settleCount_rejectAll cs.pending h i

theorem worker_error_rejects_all_pending_witness :
    (runClient initClient [ClientEvent.send, ClientEvent.send]).1.pending.Nodup
    ∧ (clientStep (runClient initClient [ClientEvent.send, ClientEvent.send]).1
        ClientEvent.workerError).1.pending = []
    ∧ (clientStep (runClient initClient [ClientEvent.send, ClientEvent.send]).1
        ClientEvent.workerError).2
        = [CAction.reject 1 "Worker error", CAction.reject 2 "Worker error"] := by
  have h := worker_error_rejects_all_pending
    (runClient initClient [ClientEvent.send, ClientEvent.send]).1 (by decide)
  exact ⟨by decide, h.1, by decide⟩

/-- C4: the worker handles `run_event_loop` by first posting the
`event_loop_starting` acknowledgment, then making the blocking native
call, then posting `event_loop_ended`; on the control side an
`event_loop_starting` message never settles anything, while
`event_loop_ended` resolves the matching pending request. -/
theorem event_loop_starting_then_ended :
    (∀ (cap : Capy) (st : WorkerState) (id : Nat),
        dispatch cap st id Command.run_event_loop
          = (st, [WOut.msg (WMsg.eventLoopStarting id), WOut.ffi FfiCall.runEventLoop,
                  WOut.msg (WMsg.eventLoopEnded id)]))
    ∧ (∀ cs i, handleWorkerMessage cs (WMsg.eventLoopStarting i) = (cs, []))
    ∧ (∀ cs i, i ∈ cs.pending →
        handleWorkerMessage cs (WMsg.eventLoopEnded i)
          = (removePending cs i, [CAction.resolve i])) := by
  refine ⟨fun cap st id => rfl, fun cs i => rfl, fun cs i hi => ?_⟩
  simp [handleWorkerMessage, hi]

theorem event_loop_starting_then_ended_witness :
    dispatch capC initWorker 3 Command.run_event_loop
      = (initWorker, [WOut.msg (WMsg.eventLoopStarting 3), WOut.ffi FfiCall.runEventLoop,
                      WOut.msg (WMsg.eventLoopEnded 3)])
    ∧ handleWorkerMessage (clientStep initClient ClientEvent.send).1
        (WMsg.eventLoopStarting 1) = ((clientStep initClient ClientEvent.send).1, [])
    ∧ handleWorkerMessage (clientStep initClient ClientEvent.send).1
        (WMsg.eventLoopEnded 1)
        = (removePending (clientStep initClient ClientEvent.send).1 1, [CAction.resolve 1]) := by
  have h := event_loop_starting_then_ended
  exact ⟨h.1 capC initWorker 3, h.2.1 _ 1, h.2.2 _ 1 (by decide)⟩

/-- C10: a `callback` message whose callback id is not registered in
the control-side callback map invokes nothing, raises nothing, and
leaves the whole client state (pending requests included) unchanged. -/
theorem unknown_callback_id_ignored (cs : ClientState) (cid : Nat)
    (h : cid ∉ cs.callbacks) :
    handleWorkerMessage cs (WMsg.callback cid) = (cs, []) := by
  simp [handleWorkerMessage, h]

theorem unknown_callback_id_ignored_witness :
    (99 ∉ initClient.callbacks)
    ∧ handleWorkerMessage initClient (WMsg.callback 99) = (initClient, []) :=
  ⟨by decide, unknown_callback_id_ignored initClient 99 (by decide)⟩

/-! ## Registry invariants on the worker side -/

lemma mem_mapSet (m : List (Nat × Nat)) (k v : Nat) (q : Nat × Nat)
    (hq : q ∈ mapSet m k v) : q ∈ m ∨ q = (k, v) := by
  unfold mapSet at hq
  split at hq
  · rcases List.mem_map.mp hq with ⟨p, hp, he⟩
    by_cases hk : p.1 = k
    · right
      rw [← he, if_pos hk]
    · left
      rw [← he, if_neg hk]
      exact hp
  · rcases List.mem_append.mp hq with h | h
    · left
      exact h
    · right
      exact List.mem_singleton.mp h

lemma registerHandle_fst (st : WorkerState) (p : Nat) :
    (registerHandle st p).1.handles = mapSet st.handles st.nextHandleId p
    ∧ (registerHandle st p).1.nextHandleId = st.nextHandleId + 1
    ∧ (registerHandle st p).2 = st.nextHandleId := ⟨rfl, rfl, rfl⟩

lemma WInv_registerHandle (st : WorkerState) (p : Nat) (h : WInv st) (hp : p ≠ 0) :
    WInv (registerHandle st p).1 := by
  obtain ⟨h1, h2⟩ := h
  refine ⟨Nat.le_succ_of_le h1, fun q hq => ?_⟩
  rcases mem_mapSet st.handles st.nextHandleId p q hq with hm | he
  · obtain ⟨ha, hb, hc⟩ := h2 q hm
    exact ⟨ha, Nat.lt_succ_of_lt hb, hc⟩
  · subst he
    exact ⟨h1, Nat.lt_succ_self _, hp⟩

lemma createdHandles_append (a b : List WOut) :
    createdHandles (a ++ b) = createdHandles a ++ createdHandles b := by
  simp [createdHandles, List.filterMap_append]

lemma createdHandles_tkmap (l : List ToolkitCall) :
    createdHandles (l.map WOut.tk) = [] := by
  induction l with
  | nil => rfl
  | cons a l ih =>
      simp only [List.map_cons, createdHandles, List.filterMap_cons] at ih ⊢
      exact ih

lemma capy_column_create_some (cap : Capy) (ptrs : List Nat) (p : Nat)
    (t : List ToolkitCall) (h : capy_column_create cap ptrs = (some p, t)) : p ≠ 0 := by
  unfold capy_column_create at h
  split at h
  · simp at h
  · split at h
    · simp at h
    · split at h
      · by_cases hz : cap.columnOf ptrs = 0
        · simp [hz] at h
        · simp [hz] at h
          rw [← h.1]
          exact hz
      · simp at h

lemma capy_row_create_some (cap : Capy) (ptrs : List Nat) (p : Nat)
    (t : List ToolkitCall) (h : capy_row_create cap ptrs = (some p, t)) : p ≠ 0 := by
  unfold capy_row_create at h
  split at h
  · simp at h
  · split at h
    · simp at h
    · split at h
      · by_cases hz : cap.rowOf ptrs = 0
        · simp [hz] at h
        · simp [hz] at h
          rw [← h.1]
          exact hz
      · simp at h

lemma createdHandles_ffi_cons (c : FfiCall) (rest : List WOut) :
    createdHandles (WOut.ffi c :: rest) = createdHandles rest := rfl

lemma capy_column_create_fst (cap : Capy) (ptrs : List Nat) (p : Nat)
    (h : (capy_column_create cap ptrs).1 = some p) : p ≠ 0 :=
  capy_column_create_some cap ptrs p (capy_column_create cap ptrs).2 (Prod.ext h rfl)

lemma capy_row_create_fst (cap : Capy) (ptrs : List Nat) (p : Nat)
    (h : (capy_row_create cap ptrs).1 = some p) : p ≠ 0 :=
  capy_row_create_some cap ptrs p (capy_row_create cap ptrs).2 (Prod.ext h rfl)

lemma dispatch_registry (cap : Capy) (st : WorkerState) (id : Nat) (cmd : Command)
    (h : WInv st) :
    WInv (dispatch cap st id cmd).1
    ∧ st.nextHandleId ≤ (dispatch cap st id cmd).1.nextHandleId
    ∧ (createdHandles (dispatch cap st id cmd).2 = []
        ∨ (createdHandles (dispatch cap st id cmd).2 = [st.nextHandleId]
            ∧ (dispatch cap st id cmd).1.nextHandleId = st.nextHandleId + 1)) := by
  cases cmd with
  | window_create =>
      simp only [dispatch]
      by_cases hz : cap.window = 0
      · rw [if_pos hz]
        exact ⟨h, le_refl _, Or.inl rfl⟩
      · rw [if_neg hz]
        exact ⟨WInv_registerHandle st cap.window h hz, Nat.le_succ _, Or.inr ⟨rfl, rfl⟩⟩
  | window_set_title hid title =>
      simp only [dispatch]
      cases hl : lookupHandle st hid with
      | none => exact ⟨h, le_refl _, Or.inl rfl⟩
      | some p => exact ⟨h, le_refl _, Or.inl rfl⟩
  | window_set_preferred_size hid w ht =>
      simp only [dispatch]
      cases hl : lookupHandle st hid with
      | none => exact ⟨h, le_refl _, Or.inl rfl⟩
      | some p => exact ⟨h, le_refl _, Or.inl rfl⟩
  | window_set_child wh gh =>
      simp only [dispatch]
      cases hl1 : lookupHandle st wh with
      | none => exact ⟨h, le_refl _, Or.inl rfl⟩
      | some wp =>
          cases hl2 : lookupHandle st gh with
          | none => exact ⟨h, le_refl _, Or.inl rfl⟩
          | some gp =>
              dsimp only
              by_cases hr : cap.setChildResult wp gp ≠ 0
              · rw [if_pos hr]
                exact ⟨h, le_refl _, Or.inl rfl⟩
              · rw [if_neg hr]
                exact ⟨h, le_refl _, Or.inl rfl⟩
  | window_show hid =>
      simp only [dispatch]
      cases hl : lookupHandle st hid with
      | none => exact ⟨h, le_refl _, Or.inl rfl⟩
      | some p => exact ⟨h, le_refl _, Or.inl rfl⟩
  | label_create text alignment =>
      simp only [dispatch]
      by_cases hz : cap.labelOf text (alignment.getD 0) = 0
      · rw [if_pos hz]
        exact ⟨h, le_refl _, Or.inl rfl⟩
      · rw [if_neg hz]
        exact ⟨WInv_registerHandle st _ h hz, Nat.le_succ _, Or.inr ⟨rfl, rfl⟩⟩
  | button_create labelText callbackId =>
      simp only [dispatch]
      by_cases hz : cap.buttonOf labelText callbackId.isSome = 0
      · rw [if_pos hz]
        exact ⟨h, le_refl _, Or.inl rfl⟩
      · rw [if_neg hz]
        cases callbackId with
        | none =>
            exact ⟨WInv_registerHandle st _ h hz, Nat.le_succ _, Or.inr ⟨rfl, rfl⟩⟩
        | some c =>
            refine ⟨?_, Nat.le_succ _, Or.inr ⟨rfl, rfl⟩⟩
            have hw := WInv_registerHandle st (cap.buttonOf labelText (some c).isSome) h hz
            exact ⟨hw.1, fun q hq => hw.2 q hq⟩
  | textfield_create text readOnly =>
      simp only [dispatch]
      by_cases hz : cap.textFieldOf (text.getD "") (readOnly.getD false) = 0
      · rw [if_pos hz]
        exact ⟨h, le_refl _, Or.inl rfl⟩
      · rw [if_neg hz]
        exact ⟨WInv_registerHandle st _ h hz, Nat.le_succ _, Or.inr ⟨rfl, rfl⟩⟩
  | column_create kids =>
      simp only [dispatch]
      by_cases hv : ((kids.map (lookupHandle st)).any fun o => o.isNone) = true
      · rw [if_pos hv]
        exact ⟨h, le_refl _, Or.inl rfl⟩
      · rw [if_neg hv]
        cases hres : (capy_column_create cap
            ((kids.map (lookupHandle st)).map fun o => o.getD 0)).1 with
        | none =>
            dsimp only
            refine ⟨h, le_refl _, Or.inl ?_⟩
            rw [createdHandles_append, createdHandles_ffi_cons, createdHandles_tkmap]
            rfl
        | some p =>
            dsimp only
            have hp := capy_column_create_fst cap _ p hres
            refine ⟨WInv_registerHandle st p h hp, Nat.le_succ _, Or.inr ⟨?_, rfl⟩⟩
            rw [createdHandles_append, createdHandles_ffi_cons, createdHandles_tkmap]
            rfl
  | row_create kids =>
      simp only [dispatch]
      by_cases hv : ((kids.map (lookupHandle st)).any fun o => o.isNone) = true
      · rw [if_pos hv]
        exact ⟨h, le_refl _, Or.inl rfl⟩
      · rw [if_neg hv]
        cases hres : (capy_row_create cap
            ((kids.map (lookupHandle st)).map fun o => o.getD 0)).1 with
        | none =>
            dsimp only
            refine ⟨h, le_refl _, Or.inl ?_⟩
            rw [createdHandles_append, createdHandles_ffi_cons, createdHandles_tkmap]
            rfl
        | some p =>
            dsimp only
            have hp := capy_row_create_fst cap _ p hres
            refine ⟨WInv_registerHandle st p h hp, Nat.le_succ _, Or.inr ⟨?_, rfl⟩⟩
            rw [createdHandles_append, createdHandles_ffi_cons, createdHandles_tkmap]
            rfl
  | alignment_create ch x y =>
      simp only [dispatch]
      cases hl : lookupHandle st ch with
      | none => exact ⟨h, le_refl _, Or.inl rfl⟩
      | some p =>
          dsimp only
          by_cases hz : cap.alignmentOf p = 0
          · rw [if_pos hz]
            exact ⟨h, le_refl _, Or.inl rfl⟩
          · rw [if_neg hz]
            exact ⟨WInv_registerHandle st _ h hz, Nat.le_succ _, Or.inr ⟨rfl, rfl⟩⟩
  | run_event_loop =>
      exact ⟨h, le_refl _, Or.inl rfl⟩
  | shutdown =>
      exact ⟨h, le_refl _, Or.inl rfl⟩
  | unknown name =>
      exact ⟨h, le_refl _, Or.inl rfl⟩

lemma runWorker_registry (cap : Capy) (cmds : List (Nat × Command)) :
    ∀ st, WInv st →
      WInv (runWorker cap st cmds).1
      ∧ st.nextHandleId ≤ (runWorker cap st cmds).1.nextHandleId
      ∧ (∀ x ∈ createdHandles (runWorker cap st cmds).2,
          st.nextHandleId ≤ x ∧ x < (runWorker cap st cmds).1.nextHandleId)
      ∧ List.Chain' (· < ·) (createdHandles (runWorker cap st cmds).2) := by
  induction cmds with
  | nil =>
      intro st h
      exact ⟨h, le_refl _, fun x hx => absurd hx (List.not_mem_nil x), List.chain'_nil⟩
  | cons hd rest ih =>
      intro st h
      obtain ⟨id, c⟩ := hd
      obtain ⟨h1, h2, h3⟩ := dispatch_registry cap st id c h
      obtain ⟨g1, g2, g3, g4⟩ := ih (dispatch cap st id c).1 h1
      have hout : (runWorker cap st ((id, c) :: rest)).2
          = (dispatch cap st id c).2 ++ (runWorker cap (dispatch cap st id c).1 rest).2 := rfl
      have hst : (runWorker cap st ((id, c) :: rest)).1
          = (runWorker cap (dispatch cap st id c).1 rest).1 := rfl
      rw [hout, hst, createdHandles_append]
      rcases h3 with h3 | ⟨h3, h3n⟩
      · rw [h3]
        refine ⟨g1, le_trans h2 g2, ?_, ?_⟩
        · intro x hx
          rw [List.nil_append] at hx
          obtain ⟨ga, gb⟩ := g3 x hx
          exact ⟨le_trans h2 ga, gb⟩
        · rw [List.nil_append]
          exact g4
      · rw [h3]
        refine ⟨g1, le_trans h2 g2, ?_, ?_⟩
        · intro x hx
          rcases List.mem_append.mp hx with hx | hx
          · rcases List.mem_singleton.mp hx with rfl
            refine ⟨le_refl _, ?_⟩
            rw [h3n] at g2
            omega
          · obtain ⟨ga, gb⟩ := g3 x hx
            rw [h3n] at ga
            exact ⟨by omega, gb⟩
        · rw [List.singleton_append]
          rw [List.chain'_cons']
          refine ⟨?_, g4⟩
          intro b hb
          have hbm : b ∈ createdHandles (runWorker cap (dispatch cap st id c).1 rest).2 :=
            List.mem_of_mem_head? hb
          obtain ⟨ga, _⟩ := g3 b hbm
          rw [h3n] at ga
          omega

/-- C3: any sequence of commands dispatched from a fresh worker yields
`*_created` replies whose handle ids are strictly increasing, hence
pairwise distinct and never reused: N successful creations give N
distinct handles. -/
theorem handle_registry_unique (cap : Capy) (cmds : List (Nat × Command)) :
    List.Chain' (· < ·) (createdHandles (runWorker cap initWorker cmds).2)
    ∧ (createdHandles (runWorker cap initWorker cmds).2).Nodup := by
  have hinv : WInv initWorker := ⟨le_refl _, fun p hp => nomatch hp⟩
  obtain ⟨-, -, -, hc⟩ := runWorker_registry cap cmds initWorker hinv
  refine ⟨hc, ?_⟩
  exact (List.chain'_iff_pairwise.mp hc).nodup

lemma lookupHandle_zero (st : WorkerState) (h : WInv st) : lookupHandle st 0 = none := by
  unfold lookupHandle mapGet
  cases hf : st.handles.find? (fun p => p.1 = 0) with
  | none => rfl
  | some p =>
      have hp := List.find?_some hf
      have hm := List.mem_of_find?_eq_some hf
      have h1 := (h.2 p hm).1
      simp at hp
      omega

lemma any_isNone_of_missing (st : WorkerState) (kids : List Nat) (k : Nat)
    (hk : k ∈ kids) (hl : lookupHandle st k = none) :
    ((kids.map (lookupHandle st)).any fun o => o.isNone) = true := by
  rw [List.any_eq_true]
  exact ⟨none, List.mem_map.mpr ⟨k, hk, hl⟩, rfl⟩

/-- C5: a handle-taking command that references any handle id the
registry never issued (zero included: under the registry invariant id 0
never resolves) is answered by an error reply bearing the same request
id, with the worker state untouched and with no FFI call and no
toolkit call made for that command. -/
theorem invalid_handle_no_native_call (cap : Capy) (st : WorkerState) (id : Nat)
    (cmd : Command) (h : ∃ k ∈ handleRefs cmd, lookupHandle st k = none) :
    (WInv st → lookupHandle st 0 = none)
    ∧ (∃ e, dispatch cap st id cmd = (st, [WOut.msg (WMsg.error (some id) e)]))
    ∧ ffiCalls (dispatch cap st id cmd).2 = []
    ∧ toolkitCalls (dispatch cap st id cmd).2 = [] := by
  obtain ⟨k, hk, hl⟩ := h
  refine ⟨fun hw => lookupHandle_zero st hw, ?_⟩
  have key : ∃ e, dispatch cap st id cmd = (st, [WOut.msg (WMsg.error (some id) e)]) := by
    cases cmd with
    | window_set_title hid title =>
        rcases List.mem_singleton.mp hk with rfl
        exact ⟨"Invalid window handle", by simp [dispatch, hl]⟩
    | window_set_preferred_size hid w ht =>
        rcases List.mem_singleton.mp hk with rfl
        exact ⟨"Invalid window handle", by simp [dispatch, hl]⟩
    | window_set_child wh gh =>
        refine ⟨"Invalid handle", ?_⟩
        simp only [dispatch]
        rcases List.mem_cons.mp hk with heq | hk2
        · subst heq
          cases hgh : lookupHandle st gh with
          | none => rw [hl]
          | some gp => rw [hl]
        · have heq := List.mem_singleton.mp hk2
          subst heq
          cases hwh : lookupHandle st wh with
          | none => rw [hl]
          | some wp => rw [hl]
    | window_show hid =>
        rcases List.mem_singleton.mp hk with rfl
        exact ⟨"Invalid window handle", by simp [dispatch, hl]⟩
    | column_create kids =>
        refine ⟨"Invalid child handle", ?_⟩
        simp only [dispatch]
        rw [if_pos (any_isNone_of_missing st kids k hk hl)]
    | row_create kids =>
        refine ⟨"Invalid child handle", ?_⟩
        simp only [dispatch]
        rw [if_pos (any_isNone_of_missing st kids k hk hl)]
    | alignment_create ch x y =>
        rcases List.mem_singleton.mp hk with rfl
        exact ⟨"Invalid child handle", by simp [dispatch, hl]⟩
    | window_create => exact absurd hk (List.not_mem_nil k)
    | label_create text alignment => exact absurd hk (List.not_mem_nil k)
    | button_create labelText callbackId => exact absurd hk (List.not_mem_nil k)
    | textfield_create text readOnly => exact absurd hk (List.not_mem_nil k)
    | run_event_loop => exact absurd hk (List.not_mem_nil k)
    | shutdown => exact absurd hk (List.not_mem_nil k)
    | unknown name => exact absurd hk (List.not_mem_nil k)
  obtain ⟨e, he⟩ := key
  refine ⟨⟨e, he⟩, ?_, ?_⟩
  · rw [he]
    rfl
  · rw [he]
    rfl

theorem invalid_handle_no_native_call_witness :
    (∃ k ∈ handleRefs (Command.window_set_title 7 "x"), lookupHandle initWorker k = none)
    ∧ (∃ e, dispatch capC initWorker 4 (Command.window_set_title 7 "x")
        = (initWorker, [WOut.msg (WMsg.error (some 4) e)]))
    ∧ ffiCalls (dispatch capC initWorker 4 (Command.window_set_title 7 "x")).2 = []
    ∧ lookupHandle initWorker 0 = none := by
  have hmem : ∃ k ∈ handleRefs (Command.window_set_title 7 "x"),
      lookupHandle initWorker k = none := ⟨7, by decide, rfl⟩
  have h := invalid_handle_no_native_call capC initWorker 4 (Command.window_set_title 7 "x") hmem
  exact ⟨hmem, h.2.1, h.2.2.1, h.1 ⟨le_refl _, fun p hp => absurd hp (List.not_mem_nil p)⟩⟩

lemma anyNone_false_of_valid (st : WorkerState) (kids : List Nat)
    (h : ∀ k ∈ kids, (lookupHandle st k).isSome) :
    ((kids.map (lookupHandle st)).any fun o => o.isNone) = false := by
  rw [List.any_eq_false]
  intro o ho
  rcases List.mem_map.mp ho with ⟨k, hk, rfl⟩
  have hs := h k hk
  cases hcase : lookupHandle st k with
  | none => rw [hcase] at hs; cases hs
  | some p => simp

lemma capy_column_create_big (cap : Capy) (ptrs : List Nat) (h : 5 < ptrs.length) :
    capy_column_create cap ptrs = (none, []) := by
  simp only [capy_column_create]
  rw [if_neg (by omega : ¬ ptrs.length = 0)]
  by_cases h10 : ptrs.length > 10
  · rw [if_pos h10]
  · rw [if_neg h10, if_neg (by omega : ¬ ptrs.length ≤ 5)]

lemma capy_row_create_big (cap : Capy) (ptrs : List Nat) (h : 5 < ptrs.length) :
    capy_row_create cap ptrs = (none, []) := by
  simp only [capy_row_create]
  rw [if_neg (by omega : ¬ ptrs.length = 0)]
  by_cases h10 : ptrs.length > 10
  · rw [if_pos h10]
  · rw [if_neg h10, if_neg (by omega : ¬ ptrs.length ≤ 5)]

lemma capy_column_create_ok (cap : Capy) (ptrs : List Nat) (h1 : 1 ≤ ptrs.length)
    (h5 : ptrs.length ≤ 5) (hz : cap.columnOf ptrs ≠ 0) :
    capy_column_create cap ptrs = (some (cap.columnOf ptrs), [ToolkitCall.column ptrs]) := by
  simp only [capy_column_create]
  rw [if_neg (by omega : ¬ ptrs.length = 0), if_neg (by omega : ¬ ptrs.length > 10),
    if_pos h5, if_neg hz]

lemma capy_row_create_ok (cap : Capy) (ptrs : List Nat) (h1 : 1 ≤ ptrs.length)
    (h5 : ptrs.length ≤ 5) (hz : cap.rowOf ptrs ≠ 0) :
    capy_row_create cap ptrs = (some (cap.rowOf ptrs), [ToolkitCall.row ptrs]) := by
  simp only [capy_row_create]
  rw [if_neg (by omega : ¬ ptrs.length = 0), if_neg (by omega : ¬ ptrs.length > 10),
    if_pos h5, if_neg hz]

lemma fresh_handle_not_mem (st : WorkerState) (h : WInv st) :
    st.nextHandleId ∉ st.handles.map (fun p => p.1) := by
  intro hm
  rcases List.mem_map.mp hm with ⟨q, hq, he⟩
  have := (h.2 q hq).2.1
  omega

/-- C6: at the boundary to the capy toolkit, `column_create` /
`row_create` with zero children fail with an error reply and no toolkit
call; with more children than the supported bound of five (all child
handles valid) they likewise fail before any toolkit call — counts six
to ten fall into the wrapper's unhandled `switch` arm and above ten its
explicit guard; with a count between one and five, all child handles
valid and a succeeding toolkit constructor, the command succeeds and
returns the fresh handle `nextHandleId`, which was never issued
before. -/
theorem container_bounds (cap : Capy) (st : WorkerState) (id : Nat) (kids : List Nat) :
    (kids = [] →
        dispatch cap st id (Command.column_create kids)
          = (st, [WOut.ffi (FfiCall.columnCreate []),
                  WOut.msg (WMsg.error (some id) "Failed to create column")])
        ∧ dispatch cap st id (Command.row_create kids)
          = (st, [WOut.ffi (FfiCall.rowCreate []),
                  WOut.msg (WMsg.error (some id) "Failed to create row")]))
    ∧ (5 < kids.length → (∀ k ∈ kids, (lookupHandle st k).isSome) →
        dispatch cap st id (Command.column_create kids)
          = (st, [WOut.ffi (FfiCall.columnCreate
                    ((kids.map (lookupHandle st)).map fun o => o.getD 0)),
                  WOut.msg (WMsg.error (some id) "Failed to create column")])
        ∧ dispatch cap st id (Command.row_create kids)
          = (st, [WOut.ffi (FfiCall.rowCreate
                    ((kids.map (lookupHandle st)).map fun o => o.getD 0)),
                  WOut.msg (WMsg.error (some id) "Failed to create row")]))
    ∧ (1 ≤ kids.length → kids.length ≤ 5 → (∀ k ∈ kids, (lookupHandle st k).isSome) →
        (cap.columnOf ((kids.map (lookupHandle st)).map fun o => o.getD 0) ≠ 0 →
          dispatch cap st id (Command.column_create kids)
            = ((registerHandle st
                  (cap.columnOf ((kids.map (lookupHandle st)).map fun o => o.getD 0))).1,
               [WOut.ffi (FfiCall.columnCreate
                  ((kids.map (lookupHandle st)).map fun o => o.getD 0)),
                WOut.tk (ToolkitCall.column
                  ((kids.map (lookupHandle st)).map fun o => o.getD 0)),
                WOut.msg (WMsg.created "widget" id st.nextHandleId)]))
        ∧ (cap.rowOf ((kids.map (lookupHandle st)).map fun o => o.getD 0) ≠ 0 →
          dispatch cap st id (Command.row_create kids)
            = ((registerHandle st
                  (cap.rowOf ((kids.map (lookupHandle st)).map fun o => o.getD 0))).1,
               [WOut.ffi (FfiCall.rowCreate
                  ((kids.map (lookupHandle st)).map fun o => o.getD 0)),
                WOut.tk (ToolkitCall.row
                  ((kids.map (lookupHandle st)).map fun o => o.getD 0)),
                WOut.msg (WMsg.created "widget" id st.nextHandleId)])))
    ∧ (WInv st → st.nextHandleId ∉ st.handles.map fun p => p.1) := by
  refine ⟨?_, ?_, ?_, fun hw => fresh_handle_not_mem st hw⟩
  · rintro rfl
    exact ⟨rfl, rfl⟩
  · intro hlen hvalid
    have hv := anyNone_false_of_valid st kids hvalid
    have hv' : ¬ (((kids.map (lookupHandle st)).any fun o => o.isNone) = true) := by
      rw [hv]
      exact Bool.false_ne_true
    have hlp : 5 < ((kids.map (lookupHandle st)).map fun o => o.getD 0).length := by
      simpa [List.length_map] using hlen
    constructor
    · simp only [dispatch]
      rw [if_neg hv', capy_column_create_big cap _ hlp]
      rfl
    · simp only [dispatch]
      rw [if_neg hv', capy_row_create_big cap _ hlp]
      rfl
  · intro h1 h5 hvalid
    have hv := anyNone_false_of_valid st kids hvalid
    have hv' : ¬ (((kids.map (lookupHandle st)).any fun o => o.isNone) = true) := by
      rw [hv]
      exact Bool.false_ne_true
    have hl1 : 1 ≤ ((kids.map (lookupHandle st)).map fun o => o.getD 0).length := by
      simpa [List.length_map] using h1
    have hl5 : ((kids.map (lookupHandle st)).map fun o => o.getD 0).length ≤ 5 := by
      simpa [List.length_map] using h5
    constructor
    · intro hz
      simp only [dispatch]
      rw [if_neg hv', capy_column_create_ok cap _ hl1 hl5 hz]
      rfl
    · intro hz
      simp only [dispatch]
      rw [if_neg hv', capy_row_create_ok cap _ hl1 hl5 hz]
      rfl

def exampleWorker : WorkerState := (dispatch capC initWorker 10 Command.window_create).1

theorem container_bounds_witness :
    dispatch capC exampleWorker 13 (Command.column_create [])
      = (exampleWorker, [WOut.ffi (FfiCall.columnCreate []),
          WOut.msg (WMsg.error (some 13) "Failed to create column")])
    ∧ dispatch capC exampleWorker 14 (Command.column_create [1, 1, 1, 1, 1, 1])
      = (exampleWorker, [WOut.ffi (FfiCall.columnCreate
            ((([1, 1, 1, 1, 1, 1] : List Nat).map (lookupHandle exampleWorker)).map
              fun o => o.getD 0)),
          WOut.msg (WMsg.error (some 14) "Failed to create column")])
    ∧ dispatch capC exampleWorker 12 (Command.column_create [1])
      = ((registerHandle exampleWorker
            (capC.columnOf ((([1] : List Nat).map (lookupHandle exampleWorker)).map
              fun o => o.getD 0))).1,
         [WOut.ffi (FfiCall.columnCreate
            ((([1] : List Nat).map (lookupHandle exampleWorker)).map fun o => o.getD 0)),
          WOut.tk (ToolkitCall.column
            ((([1] : List Nat).map (lookupHandle exampleWorker)).map fun o => o.getD 0)),
          WOut.msg (WMsg.created "widget" 12 exampleWorker.nextHandleId)])
    ∧ exampleWorker.nextHandleId ∉ exampleWorker.handles.map (fun p => p.1) := by
  refine ⟨?_, ?_, ?_, ?_⟩
  · exact ((container_bounds capC exampleWorker 13 []).1 rfl).1
  · exact ((container_bounds capC exampleWorker 14 [1, 1, 1, 1, 1, 1]).2.1
      (by decide) (by decide)).1
  · exact (((container_bounds capC exampleWorker 12 [1]).2.2.1
      (by decide) (by decide) (by decide)).1 (by decide))
  · exact (container_bounds capC exampleWorker 15 []).2.2.2 (by unfold WInv; decide)

/-! ## Callback router claims -/

lemma mapGet_mapSet_of_none (m : List (Nat × Nat)) (k v : Nat) (h : mapGet m k = none) :
    mapGet (mapSet m k v) k = some v := by
  have hf : m.find? (fun p => p.1 = k) = none := by
    unfold mapGet at h
    cases hc : m.find? (fun p => p.1 = k) with
    | none => rfl
    | some p => rw [hc] at h; cases h
  unfold mapSet
  rw [hf]
  simp only [Option.isSome_none, Bool.false_eq_true, if_false]
  unfold mapGet
  rw [List.find?_append, hf]
  simp [List.find?]

/-- C8: a native-pointer-to-callback-id binding, once present in
`buttonPtrToCallback`, is never re-selected: an invocation on a bound
pointer posts exactly its bound id and leaves the state unchanged.  In
the one-registered-callback scenario (`widgetToCallback = [(w, cid)]`),
a first invocation on an unbound pointer posts exactly one
`callback cid` message, and a second invocation on the same pointer
posts `callback cid` again without touching the state; on the control
side a `callback cid` message with `cid` registered invokes exactly
that callback. -/
theorem callback_binding_permanent :
    (∀ (ws : WorkerState) (ptr cid : Nat),
        mapGet ws.buttonPtrToCallback ptr = some cid →
        buttonClickCallback ws ptr = (ws, [WMsg.callback cid]))
    ∧ (∀ (ws : WorkerState) (w cid ptr : Nat),
        ws.widgetToCallback = [(w, cid)] →
        mapGet ws.buttonPtrToCallback ptr = none →
        (buttonClickCallback ws ptr).2 = [WMsg.callback cid]
        ∧ buttonClickCallback (buttonClickCallback ws ptr).1 ptr
            = ((buttonClickCallback ws ptr).1, [WMsg.callback cid]))
    ∧ (∀ (cs : ClientState) (cid : Nat), cid ∈ cs.callbacks →
        handleWorkerMessage cs (WMsg.callback cid) = (cs, [CAction.invokeCallback cid])) := by
  have hbound : ∀ (ws : WorkerState) (ptr cid : Nat),
      mapGet ws.buttonPtrToCallback ptr = some cid →
      buttonClickCallback ws ptr = (ws, [WMsg.callback cid]) := by
    intro ws ptr cid h
    unfold buttonClickCallback
    rw [h]
  refine ⟨hbound, ?_, ?_⟩
  · intro ws w cid ptr hwc hnone
    have hfirst : buttonClickCallback ws ptr
        = ({ ws with buttonPtrToCallback := mapSet ws.buttonPtrToCallback ptr cid },
           [WMsg.callback cid]) := by
      unfold buttonClickCallback
      rw [hnone, hwc]
      rfl
    refine ⟨by rw [hfirst], ?_⟩
    rw [hfirst]
    exact hbound _ ptr cid (mapGet_mapSet_of_none ws.buttonPtrToCallback ptr cid hnone)
  · intro cs cid h
    simp [handleWorkerMessage, h]

/-- Worker state after creating two buttons with registered callback
ids 1 and 2 (widget pointers 11 and 12 under the `capC` oracle). -/
def exampleButtons : WorkerState :=
  (dispatch capC (dispatch capC initWorker 1 (Command.button_create "A" (some 1))).1
    2 (Command.button_create "B" (some 2))).1

theorem callback_binding_permanent_witness :
    exampleButtons.widgetToCallback = [(11, 1), (12, 2)]
    ∧ mapGet (buttonClickCallback exampleButtons 100).1.buttonPtrToCallback 100 = some 1
    ∧ buttonClickCallback (buttonClickCallback exampleButtons 100).1 100
        = ((buttonClickCallback exampleButtons 100).1, [WMsg.callback 1])
    ∧ handleWorkerMessage { initClient with callbacks := [7] } (WMsg.callback 7)
        = ({ initClient with callbacks := [7] }, [CAction.invokeCallback 7]) := by
  have h := callback_binding_permanent
  refine ⟨by decide, by decide, ?_, ?_⟩
  · exact h.1 (buttonClickCallback exampleButtons 100).1 100 1 (by decide)
  · exact h.2.2 { initClient with callbacks := [7] } 7 (by decide)

/-- C2 counterexample: with callbacks 1 and 2 registered (in that
order) and pointer 100 already bound to callback 1, a fresh invocation
on the unbound pointer 200 is delivered with callback id 1 — the first
value of `widgetToCallback`, which is already bound — although the
first (and only) unbound logical callback is 2; and in a state whose
only registered callback is already bound, an invocation on a fresh
pointer still delivers that callback instead of being dropped. -/
theorem callback_router_selection_cex :
    (mapGet (buttonClickCallback exampleButtons 100).1.buttonPtrToCallback 200 = none
      ∧ firstUnboundCallback (buttonClickCallback exampleButtons 100).1 = some 2
      ∧ (buttonClickCallback (buttonClickCallback exampleButtons 100).1 200).2
          = [WMsg.callback 1]
      ∧ WMsg.callback 1 ≠ WMsg.callback 2)
    ∧ (firstUnboundCallback
          { handles := [(1, 11)], nextHandleId := 2,
            widgetToCallback := [(11, 1)], buttonPtrToCallback := [(100, 1)] } = none
      ∧ (buttonClickCallback
          { handles := [(1, 11)], nextHandleId := 2,
            widgetToCallback := [(11, 1)], buttonPtrToCallback := [(100, 1)] } 200).2
          = [WMsg.callback 1]) := by
  exact ⟨⟨by decide, by decide, by decide, by decide⟩, ⟨by decide, by decide⟩⟩

/-- C2 (amended): on a native invocation for an unbound pointer the
router selects the first value of `widgetToCallback` in registration
order — whether or not that callback id is already bound to another
pointer — binds the pointer to it permanently and delivers the event
for it; the invocation is dropped only when no logical callback has
ever been registered. -/
theorem callback_router_first_registered (ws : WorkerState) (ptr : Nat)
    (h : mapGet ws.buttonPtrToCallback ptr = none) :
    (ws.widgetToCallback = [] → buttonClickCallback ws ptr = (ws, []))
    ∧ (∀ w cid rest, ws.widgetToCallback = (w, cid) :: rest →
        buttonClickCallback ws ptr
          = ({ ws with buttonPtrToCallback := mapSet ws.buttonPtrToCallback ptr cid },
             [WMsg.callback cid])) := by
  constructor
  · intro he
    unfold buttonClickCallback
    rw [h, he]
    rfl
  · intro w cid rest he
    unfold buttonClickCallback
    rw [h, he]
    rfl

theorem callback_router_first_registered_witness :
    mapGet (buttonClickCallback exampleButtons 100).1.buttonPtrToCallback 200 = none
    ∧ buttonClickCallback (buttonClickCallback exampleButtons 100).1 200
        = ({ (buttonClickCallback exampleButtons 100).1 with
              buttonPtrToCallback :=
                mapSet (buttonClickCallback exampleButtons 100).1.buttonPtrToCallback 200 1 },
           [WMsg.callback 1])
    ∧ buttonClickCallback initWorker 300 = (initWorker, []) := by
  refine ⟨by decide, ?_, ?_⟩
  · exact (callback_router_first_registered (buttonClickCallback exampleButtons 100).1 200
      (by decide)).2 11 1 [(12, 2)] (by decide)
  · exact (callback_router_first_registered initWorker 300 rfl).1 rfl

/-! ## Object-proxy claims -/

/-- C9 counterexample: when creation fails, `Widget.getHandleId` never
settles (the init promise is never resolved) instead of failing with
`"Widget not initialized"`, and `Window` operations reject with the
original creation error instead of `"Window not initialized"`. -/
theorem get_handle_failure_cex :
    widgetGetHandleId (Except.error "Failed to create label") = PResult.pending
    ∧ (PResult.pending : PResult Nat) ≠ PResult.rejected "Widget not initialized"
    ∧ windowEnsureInitialized (Except.error "Failed to create window")
        = PResult.rejected "Failed to create window"
    ∧ (PResult.rejected "Failed to create window" : PResult Nat)
        ≠ PResult.rejected "Window not initialized" := by
  exact ⟨rfl, by decide, rfl, by decide⟩

/-- C9 (amended): `getHandleId` / `ensureInitialized` suspend until the
asynchronous creation completes and then return the resolved handle;
when creation fails, a widget's `getHandleId` never completes (its init
promise is never resolved) and a window's operations reject with the
original creation error — the "not initialized" errors are never
produced. -/
theorem get_handle_resolution :
    (∀ h : Nat, widgetGetHandleId (Except.ok h) = PResult.resolved h
      ∧ windowEnsureInitialized (Except.ok h) = PResult.resolved h)
    ∧ (∀ e : String, widgetGetHandleId (Except.error e) = PResult.pending
      ∧ windowEnsureInitialized (Except.error e) = PResult.rejected e) :=
  ⟨fun h => ⟨rfl, rfl⟩, fun e => ⟨rfl, rfl⟩⟩
